import Mathlib

/-!
Verification of the command-execution core of the agent-neuraops repository
(`src/backend/services/engine.ts` and `src/backend/services/commands.ts`).

The TypeScript source is embedded shallowly: pure string manipulation becomes
Lean functions over `String`/`List Char`, the mutable module state
(`activeProcesses`, `processCounter`) becomes an explicit `EngineState` record
threaded through the dispatcher, child-process interaction (Node's
`child_process.exec`/`spawn`) is modelled by an explicit oracle describing the
callback data the platform would deliver, and the nested `setTimeout`
timeout-escalation is modelled as an explicit sequence of timer-firing steps.
JavaScript regular-expression scanning is embedded as deterministic scanners
implementing the two concrete regexes' backtracking semantics.
-/

namespace NeuraOps

/-! ## Basic JS-style string operations (over `List Char`) -/

/-- JS `\s` whitespace class members that occur in ASCII text
(space, tab, newline, carriage return, vertical tab, form feed). -/
def isWs (c : Char) : Bool :=
  c == ' ' || c == '\t' || c == '\n' || c == '\r' || c == '\x0b' || c == '\x0c'

/-- Drop leading and trailing whitespace, as JS `String.prototype.trim`. -/
def trimChars (l : List Char) : List Char :=
  ((l.dropWhile isWs).reverse.dropWhile isWs).reverse

/-- JS `s.trim()`. -/
def jsTrim (s : String) : String := ⟨trimChars s.data⟩

/-- JS `s.toLowerCase()` (ASCII case mapping; every string the code compares
against is ASCII). -/
def toLowerStr (s : String) : String := ⟨s.data.map Char.toLower⟩

/-- Boolean prefix test: `isPref p l` holds when `p` is a prefix of `l`. -/
def isPref : List Char → List Char → Bool
  | [], _ => true
  | _ :: _, [] => false
  | a :: as, b :: bs => a == b && isPref as bs

/-- Substring test `containsSub needle hay`: `needle` occurs as a contiguous substring of
`hay` (the semantics of JS `hay.includes(needle)`). -/
def containsSub (needle : List Char) : List Char → Bool
  | [] => isPref needle []
  | c :: cs => isPref needle (c :: cs) || containsSub needle cs

/-- JS `s.includes(pat)`. -/
def includesStr (s pat : String) : Bool := containsSub pat.data s.data

/-- JS `s.startsWith(p)`. -/
def startsWithStr (s p : String) : Bool := isPref p.data s.data

/-- Split a character list at every occurrence of `sep` (the semantics of
JS `s.split(sep)` for a one-character separator: empty fields are kept). -/
def splitOnCharL (sep : Char) : List Char → List (List Char)
  | [] => [[]]
  | c :: cs =>
    if c == sep then [] :: splitOnCharL sep cs
    else
      match splitOnCharL sep cs with
      | [] => [[c]]
      | h :: t => (c :: h) :: t

/-- JS `s.split(sep)` for a one-character separator, on `String`. -/
def splitOnCharS (sep : Char) (s : String) : List String :=
  (splitOnCharL sep s.data).map fun l => ⟨l⟩

/-- Join character lists with a single separator character
(inverse of `splitOnCharL`). -/
def joinWithChar (sep : Char) : List (List Char) → List Char
  | [] => []
  | [l] => l
  | l :: ls => l ++ sep :: joinWithChar sep ls

/-! ## Safety Policy (`engine.ts` lines 74–111) -/

/-- The fixed deny-list `DANGEROUS_COMMANDS` of `engine.ts`. -/
def DANGEROUS_COMMANDS : List String :=
  [ "rm -rf /"
  , "mkfs"
  , "dd if="
  , "shutdown"
  , "reboot"
  , "halt"
  , "init 0"
  , "init 6"
  , ":()\x7b :|:& \x7d;:"
  , "chmod -R 777 /"
  , "chown -R root /" ]

/-- The `systemCommands` list of `validateCommand`. -/
def systemCommands : List String := ["passwd", "usermod", "userdel", "groupmod"]

/-- Result of `validateCommand`: `{ safe: boolean; reason?: string }`. -/
structure ValidationResult where
  safe : Bool
  reason : Option String
deriving DecidableEq, Repr

/-- The function `validateCommand` of `engine.ts`: lower-case and trim the command, reject
if it contains a deny-listed substring, a privilege-escalation substring, or
starts with a system-account-mutation command; otherwise safe. -/
def validateCommand (command : String) : ValidationResult :=
  let lowerCommand := jsTrim (toLowerStr command)
  match DANGEROUS_COMMANDS.find? (fun d => includesStr lowerCommand (toLowerStr d)) with
  | some dangerous =>
    { safe := false, reason := some ("Dangerous command detected: " ++ dangerous) }
  | none =>
    if includesStr lowerCommand "sudo su" || includesStr lowerCommand "su -" then
      { safe := false, reason := some "Privilege escalation not allowed" }
    else if systemCommands.any (fun cmd => startsWithStr lowerCommand cmd) then
      { safe := false
      , reason := some "System modification commands require explicit permission" }
    else { safe := true, reason := none }

/-- The leading whitespace-delimited token of the lower-cased, trimmed form of
a command.  This follows the *claim's* words ("whose leading token is one of
passwd/usermod/userdel/groupmod"); the source instead tests a string prefix. -/
def leadingToken (command : String) : String :=
  ⟨(jsTrim (toLowerStr command)).data.takeWhile (fun c => !isWs c)⟩

/-! ## Directive Parser: the two fenced-block regexes of `executeTerminalCommands`

`engine.ts` scans the model text with two global JS regexes over the tags
terminal/bash/shell/cmd: a structured form capturing a brace-delimited body,
and a plain form capturing the lines between the tag line and the closing
fence.  The scanners below implement those two regexes' concrete matching
semantics (leftmost match, lazy bodies, backtracking over the whitespace run
before the mandatory newline of the plain form). -/

/-- The three backticks opening or closing a fenced block. -/
def ticks : List Char := "\x60\x60\x60".data

/-- The fence tags of both regexes, in the alternation's order; no tag is a
prefix of another, so at most one alternative can match at a position. -/
def TAGS : List String := ["terminal", "bash", "shell", "cmd"]

/-- Consume the opening three backticks. -/
def dropTicks (l : List Char) : Option (List Char) :=
  if isPref ticks l then some (l.drop 3) else none

/-- Consume one of the fence tags. -/
def matchTag (l : List Char) : Option (List Char) :=
  match TAGS.find? (fun t => isPref t.data l) with
  | some t => some (l.drop t.data.length)
  | none => none

/-- Match `\s*` followed by the literal closing backticks (the end of the
structured form); returns the rest after the fence. -/
def closeTicksAfterWs (l : List Char) : Option (List Char) :=
  let l' := l.dropWhile isWs
  if isPref ticks l' then some (l'.drop 3) else none

/-- The lazy `[\s\S]*?` of the structured form: consume the minimal run of
characters up to a closing brace that is followed by `\s*` and the closing
fence; returns the consumed run and the rest after the fence. -/
def lazyCloseA (acc : List Char) : List Char → Option (List Char × List Char)
  | [] => none
  | c :: cs =>
    if c == '\x7d' then
      match closeTicksAfterWs cs with
      | some rest => some (acc.reverse, rest)
      | none => lazyCloseA (c :: acc) cs
    else lazyCloseA (c :: acc) cs

/-- Match the structured-form regex at the current position; on success,
returns the captured group (the brace-delimited body, braces included) and
the rest of the text after the whole match. -/
def matchA (l : List Char) : Option (List Char × List Char) :=
  match dropTicks l with
  | none => none
  | some l1 =>
    match matchTag l1 with
    | none => none
    | some l2 =>
      match l2.dropWhile isWs with
      | [] => none
      | c :: l4 =>
        if c == '\x7b' then
          match lazyCloseA [] l4 with
          | some (inner, rest) => some ('\x7b' :: (inner ++ ['\x7d']), rest)
          | none => none
        else none

/-- The lazy `[\s\S]*?` of the plain form: consume the minimal run of
characters up to a newline immediately followed by the closing fence. -/
def lazyCloseB (acc : List Char) : List Char → Option (List Char × List Char)
  | [] => none
  | c :: cs =>
    if c == '\n' && isPref ticks cs then some (acc.reverse, cs.drop 3)
    else lazyCloseB (c :: acc) cs

/-- Indices (ascending, starting at `i`) of the newline characters of a list. -/
def nlIndicesAsc : List Char → Nat → List Nat
  | [], _ => []
  | c :: cs, i =>
    if c == '\n' then i :: nlIndicesAsc cs (i + 1) else nlIndicesAsc cs (i + 1)

/-- First `some` produced by `f` along a list (the backtracking search order). -/
def firstSome {α β : Type} (f : α → Option β) : List α → Option β
  | [] => none
  | a :: as =>
    match f a with
    | some b => some b
    | none => firstSome f as

/-- Match the plain-form regex at the current position.  After the tag, the
greedy `\s*` followed by a mandatory `\n` makes the engine try the newlines
of the maximal whitespace run from last to first; for each choice the lazy
body runs to the first newline followed by the closing fence. -/
def matchB (l : List Char) : Option (List Char × List Char) :=
  match dropTicks l with
  | none => none
  | some l1 =>
    match matchTag l1 with
    | none => none
    | some l2 =>
      let w := l2.takeWhile isWs
      firstSome (fun i => lazyCloseB [] (l2.drop (i + 1))) (nlIndicesAsc w 0).reverse

/-- Global scan with a given single-position matcher: at each position try the
matcher; on a match, emit the (position, capture) pair and resume after the
match (the `lastIndex` behaviour of a JS global regex), otherwise advance one
character. -/
def scanWith (m : List Char → Option (List Char × List Char)) :
    Nat → Nat → List Char → List (Nat × List Char)
  | 0, _, _ => []
  | fuel + 1, pos, l =>
    match m l with
    | some (cap, rest) => (pos, cap) :: scanWith m fuel (pos + (l.length - rest.length)) rest
    | none =>
      match l with
      | [] => []
      | _ :: tl => scanWith m fuel (pos + 1) tl

/-- All matches of the structured-form regex, as (position, captured body). -/
def scanBlocksA (s : String) : List (Nat × String) :=
  (scanWith matchA (s.data.length + 1) 0 s.data).map fun pc => (pc.1, ⟨pc.2⟩)

/-- All matches of the plain-form regex, as (position, captured body). -/
def scanBlocksB (s : String) : List (Nat × String) :=
  (scanWith matchB (s.data.length + 1) 0 s.data).map fun pc => (pc.1, ⟨pc.2⟩)

/-! ## `JSON.parse` for the structured blocks

The structured pass runs `JSON.parse` on each captured body.  The value
grammar is embedded with an explicit syntax tree and a fueled
recursive-descent parser implementing the standard JSON grammar (the numeric
values the directives use are integers). -/

/-- Parsed JSON values. -/
inductive Json where
  | null : Json
  | bool : Bool → Json
  | num : Int → Json
  | str : String → Json
  | arr : List Json → Json
  | obj : List (String × Json) → Json

/-- JSON insignificant whitespace. -/
def jsonWsChar (c : Char) : Bool := c == ' ' || c == '\t' || c == '\n' || c == '\r'

/-- Value of a hexadecimal digit. -/
def hexVal (c : Char) : Option Nat :=
  if '0' ≤ c && c ≤ '9' then some (c.toNat - 48)
  else if 'a' ≤ c && c ≤ 'f' then some (c.toNat - 87)
  else if 'A' ≤ c && c ≤ 'F' then some (c.toNat - 55)
  else none

/-- Parse the body of a JSON string after its opening quote, handling the
standard escapes; returns the content and the rest after the closing quote. -/
def parseStringBody : List Char → Except String (List Char × List Char)
  | [] => .error "Unterminated string in JSON"
  | c :: cs =>
    if c == '"' then .ok ([], cs)
    else if c == '\\' then
      match cs with
      | [] => .error "Bad escape in JSON"
      | e :: cs' =>
        if e == '"' then (parseStringBody cs').map fun p => ('"' :: p.1, p.2)
        else if e == '\\' then (parseStringBody cs').map fun p => ('\\' :: p.1, p.2)
        else if e == '/' then (parseStringBody cs').map fun p => ('/' :: p.1, p.2)
        else if e == 'n' then (parseStringBody cs').map fun p => ('\n' :: p.1, p.2)
        else if e == 't' then (parseStringBody cs').map fun p => ('\t' :: p.1, p.2)
        else if e == 'r' then (parseStringBody cs').map fun p => ('\r' :: p.1, p.2)
        else if e == 'b' then (parseStringBody cs').map fun p => ('\x08' :: p.1, p.2)
        else if e == 'f' then (parseStringBody cs').map fun p => ('\x0c' :: p.1, p.2)
        else if e == 'u' then
          match cs' with
          | h1 :: h2 :: h3 :: h4 :: cs'' =>
            match hexVal h1, hexVal h2, hexVal h3, hexVal h4 with
            | some a, some b, some c3, some d =>
              (parseStringBody cs'').map fun p =>
                (Char.ofNat (((a * 16 + b) * 16 + c3) * 16 + d) :: p.1, p.2)
            | _, _, _, _ => .error "Bad unicode escape in JSON"
          | _ => .error "Bad unicode escape in JSON"
        else .error "Bad escape in JSON"
    else (parseStringBody cs).map fun p => (c :: p.1, p.2)

/-- Parse a JSON integer (optional minus sign and digits). -/
def parseNumber (l : List Char) : Except String (Json × List Char) :=
  let p := match l with
    | '-' :: rest => (true, rest)
    | _ => (false, l)
  let digits := p.2.takeWhile Char.isDigit
  if digits.isEmpty then .error "Unexpected token in JSON"
  else
    let n : Nat := digits.foldl (fun acc c => acc * 10 + (c.toNat - 48)) 0
    .ok (.num (if p.1 then -(n : Int) else (n : Int)), p.2.drop digits.length)

/-- The three recursion shapes of the recursive-descent JSON parser: a value,
the members of an object after its opening brace, the elements of an array
after its opening bracket. -/
inductive PTask where
  | val : List Char → PTask
  | members : List Char → List (String × Json) → PTask
  | elems : List Char → List Json → PTask

/-- Fueled recursive-descent JSON parser over the three task shapes. -/
def parseJ : Nat → PTask → Except String (Json × List Char)
  | 0, _ => .error "JSON parser fuel exhausted"
  | fuel + 1, .val l0 =>
    (match l0.dropWhile jsonWsChar with
    | [] => .error "Unexpected end of JSON input"
    | c :: cs =>
      if c == '"' then
        match parseStringBody cs with
        | .ok p => .ok (.str ⟨p.1⟩, p.2)
        | .error m => .error m
      else if c == '\x7b' then
        match cs.dropWhile jsonWsChar with
        | '\x7d' :: rest => .ok (.obj [], rest)
        | cs' => parseJ fuel (.members cs' [])
      else if c == '[' then
        match cs.dropWhile jsonWsChar with
        | ']' :: rest => .ok (.arr [], rest)
        | cs' => parseJ fuel (.elems cs' [])
      else if c == 't' then
        if isPref "rue".data cs then .ok (.bool true, cs.drop 3)
        else .error "Unexpected token in JSON"
      else if c == 'f' then
        if isPref "alse".data cs then .ok (.bool false, cs.drop 4)
        else .error "Unexpected token in JSON"
      else if c == 'n' then
        if isPref "ull".data cs then .ok (.null, cs.drop 3)
        else .error "Unexpected token in JSON"
      else parseNumber (c :: cs))
  | fuel + 1, .members l0 acc =>
    (match l0.dropWhile jsonWsChar with
    | '"' :: cs =>
      match parseStringBody cs with
      | .error m => .error m
      | .ok (key, rest1) =>
        match rest1.dropWhile jsonWsChar with
        | ':' :: rest2 =>
          match parseJ fuel (.val rest2) with
          | .error m => .error m
          | .ok (v, rest3) =>
            match rest3.dropWhile jsonWsChar with
            | ',' :: rest4 => parseJ fuel (.members rest4 (acc ++ [(⟨key⟩, v)]))
            | '\x7d' :: rest4 => .ok (.obj (acc ++ [(⟨key⟩, v)]), rest4)
            | _ => .error "Expected comma or closing brace in JSON object"
        | _ => .error "Expected colon in JSON object"
    | _ => .error "Expected string key in JSON object")
  | fuel + 1, .elems l0 acc =>
    (match parseJ fuel (.val l0) with
    | .error m => .error m
    | .ok (v, rest) =>
      match rest.dropWhile jsonWsChar with
      | ',' :: rest2 => parseJ fuel (.elems rest2 (acc ++ [v]))
      | ']' :: rest2 => .ok (.arr (acc ++ [v]), rest2)
      | _ => .error "Expected comma or closing bracket in JSON array")

/-- Models `JSON.parse`: parse a full JSON text (no trailing garbage). -/
def jparse (s : String) : Except String Json :=
  match parseJ (2 * s.data.length + 2) (.val s.data) with
  | .error m => .error m
  | .ok (v, rest) =>
    if (rest.dropWhile jsonWsChar).isEmpty then .ok v
    else .error "Unexpected non-whitespace character after JSON data"

/-- Property access `obj[key]` on a parsed JSON value; for duplicate keys
`JSON.parse` keeps the last occurrence. -/
def jlookup (j : Json) (key : String) : Option Json :=
  match j with
  | .obj kvs => (kvs.reverse.find? (fun kv => kv.1 == key)).map Prod.snd
  | _ => none

/-- JS falsiness of a field's value (`undefined`, `null`, `false`, `0` and
the empty string are falsy; objects and arrays are truthy). -/
def jsFalsy : Option Json → Bool
  | none => true
  | some .null => true
  | some (.bool b) => !b
  | some (.num n) => n == 0
  | some (.str s) => s == ""
  | some (.arr _) => false
  | some (.obj _) => false

/-! ## Data model of the Command Runner and Process Registry -/

/-- Configuration constant `TERMINAL_BASE_DIR`
(`process.env.TERMINAL_BASE_DIR || os.homedir()`; the concrete path is
environment-dependent and fixed here to the home directory). -/
def TERMINAL_BASE_DIR : String := "/home/user"

/-- Configuration constant `MAX_COMMAND_TIMEOUT` (30 seconds, in ms). -/
def MAX_COMMAND_TIMEOUT : Nat := 30000

/-- Configuration constant `MAX_OUTPUT_SIZE` (1 MiB). -/
def MAX_OUTPUT_SIZE : Nat := 1024 * 1024

/-- The grace window between SIGTERM and SIGKILL (5000 ms). -/
def GRACE_WINDOW_MS : Nat := 5000

/-- A JS `error.code` value: Node uses numbers for exit codes and strings for
error identifiers (e.g. the maxBuffer overflow code). -/
inductive JsCode where
  | num : Int → JsCode
  | str : String → JsCode
deriving DecidableEq, Repr

/-- The error object Node's `child_process.exec` passes to its callback:
`code` is the numeric exit code, or null/absent when the child died by
signal, or a string error identifier; `killed` is set when Node killed the
child (timeout or maxBuffer overflow). -/
structure ExecError where
  code : Option JsCode
  message : String
  killed : Bool
deriving DecidableEq, Repr

/-- The record `TerminalResult` of `engine.ts`.  `executionTime` is wall-clock time and
is not modelled (fixed to 0). -/
structure TerminalResult where
  success : Bool
  stdout : String
  stderr : String
  exitCode : Option JsCode
  executionTime : Nat
  processId : Option String
  workingDir : String
deriving DecidableEq, Repr

/-- A tracked `ChildProcess` handle.  `pid` and `killed` are the Node handle
fields read by `listActiveProcesses`; `running` is whether the OS process is
actually alive; `ignoresSigterm` is the process's observable response to a
graceful termination signal; `killError` is `some msg` when the handle's
`.kill()` would throw. -/
structure ProcHandle where
  pid : Nat
  killed : Bool
  running : Bool
  ignoresSigterm : Bool
  killError : Option String
deriving DecidableEq, Repr

/-- The module state of `engine.ts`: the `activeProcesses` map (as an
association list keyed by process id) and the `processCounter`. -/
structure EngineState where
  activeProcesses : List (String × ProcHandle)
  processCounter : Nat
deriving DecidableEq, Repr

/-- Map lookup `activeProcesses.get(processId)`. -/
def lookupProc (st : EngineState) (processId : String) : Option ProcHandle :=
  (st.activeProcesses.find? (fun e => e.1 == processId)).map Prod.snd

/-- Map deletion `activeProcesses.delete(processId)` (a map holds at most one entry per
key, so deletion removes every entry with the key). -/
def removeProc (st : EngineState) (processId : String) : EngineState :=
  { st with activeProcesses := st.activeProcesses.filter (fun e => !(e.1 == processId)) }

/-- The ids currently in the registry, in insertion order. -/
def listedIds (st : EngineState) : List String := st.activeProcesses.map Prod.fst

/-- The failure marker of `killProcess` messages. -/
def crossMark : String := "❌"

/-- The success marker of `killProcess` messages. -/
def checkMark : String := "✅"

/-- The function `killProcess` of `engine.ts`: look up the handle; if absent return the
not-found message; otherwise send SIGTERM (which may throw), schedule the
grace-window SIGKILL check, delete the registry entry, and return the success
message.  Returns the message, the state at return, and `some id` when the
grace-window timer was scheduled. -/
def killProcess (st : EngineState) (processId : String) :
    String × EngineState × Option String :=
  match lookupProc st processId with
  | none =>
    (crossMark ++ " Process " ++ processId ++ " not found or already terminated", st, none)
  | some handle =>
    match handle.killError with
    | some msg =>
      (crossMark ++ " Failed to kill process " ++ processId ++ ": " ++ msg, st, none)
    | none =>
      (checkMark ++ " Process " ++ processId ++ " terminated",
       removeProc st processId, some processId)

/-- The grace-window callback scheduled by `killProcess`: when it fires (5000
ms later), it sends SIGKILL iff `activeProcesses.has(processId)` holds in the
state at fire time. -/
def graceKillFires (stAtFire : EngineState) (timer : Option String) : Bool :=
  match timer with
  | none => false
  | some processId => (lookupProc stAtFire processId).isSome

/-- Whether the OS process is still running once the grace window has fully
elapsed: SIGKILL always terminates it; SIGTERM (sent by `killProcess` before
the window) terminates it unless it ignores that signal. -/
def runningAfterWindow (handle : ProcHandle) (sigkillFired : Bool) : Bool :=
  handle.running && handle.ignoresSigterm && !sigkillFired

/-- The function `listActiveProcesses` of `engine.ts`. -/
def listActiveProcesses (st : EngineState) : String :=
  if st.activeProcesses.isEmpty then "📋 No active processes"
  else
    "📋 Active Processes:\n" ++ String.intercalate "\n"
      (st.activeProcesses.map (fun e =>
        "🔄 " ++ e.1 ++ ": PID " ++ toString e.2.pid ++ " (" ++
          (if e.2.killed then "killed" else "running") ++ ")"))

/-! ## Command Runner -/

/-- The data a finished child-process interaction hands back to the runner:
the `exec` callback's arguments for non-interactive commands, or the
`close`/`error` event data for interactive ones. -/
inductive ExecOutcome where
  | execDone (error : Option ExecError) (stdout stderr : String)
  | closed (code : Option Int) (stdout stderr : String)
  | spawnFailed (message : String) (stdout stderr : String)
deriving DecidableEq, Repr

/-- The platform: what the operating system does with a given command.
`.error msg` models a thrown exception during setup (before any child is
spawned), absorbed by the runner's catch. -/
def ExecOracle := String → Bool → Except String ExecOutcome

/-- JS `error.code || -1`: a null/absent, zero, or empty-string code falls
back to -1. -/
def jsCodeOrNeg1 : Option JsCode → JsCode
  | none => .num (-1)
  | some (.num 0) => .num (-1)
  | some (.str "") => .num (-1)
  | some v => v

/-- Result built by the `exec` callback of `executeNonInteractiveCommand`
(`engine.ts` lines 197–210): `success = !error || error.code === 0`,
`stderr = stderr || error.message`, `exitCode = error ? error.code || -1 : 0`. -/
def nonInteractiveCallbackResult (error : Option ExecError) (stdout stderr : String)
    (processId workingDir : String) : TerminalResult :=
  { success := error.isNone ||
      (match error with
       | some e => e.code == some (.num 0)
       | none => false)
  , stdout := stdout
  , stderr := if stderr == "" then (match error with | some e => e.message | none => "") else stderr
  , exitCode := match error with
      | none => some (.num 0)
      | some e => some (jsCodeOrNeg1 e.code)
  , executionTime := 0
  , processId := some processId
  , workingDir := workingDir }

/-- Result built by the `close` handler of `executeInteractiveCommand`
(`engine.ts` lines 259–273): the exit code is passed through unchanged, so a
signal death leaves it null. -/
def interactiveCloseResult (code : Option Int) (stdout stderr : String)
    (processId workingDir : String) : TerminalResult :=
  { success := code == some 0
  , stdout := stdout
  , stderr := stderr
  , exitCode := code.map JsCode.num
  , executionTime := 0
  , processId := some processId
  , workingDir := workingDir }

/-- Result built by the `error` handler of `executeInteractiveCommand`
(`engine.ts` lines 275–289). -/
def interactiveErrorResult (message stdout : String)
    (processId workingDir : String) : TerminalResult :=
  { success := false
  , stdout := stdout
  , stderr := message
  , exitCode := some (.num (-1))
  , executionTime := 0
  , processId := some processId
  , workingDir := workingDir }

/-- Models `path.resolve`; resolution to an absolute path is
environment-dependent and modelled as the identity on the path string. -/
def resolvePath (p : String) : String := p

/-- The function `validateWorkingDir` of `engine.ts`: resolve the path (the escape check
only logs a warning and never rejects). -/
def validateWorkingDir (workingDir : String) : String := resolvePath workingDir

/-- The function `executeTerminalCommand` of `engine.ts`: allocate the next process id,
validate the command (rejection returns a failure result without consulting
the platform), then run it through the oracle; a thrown setup error is
absorbed into a failure result by the catch.  Returns the result, the state
at completion (the registry entry added for the child is removed again by the
callback that resolves the promise, so only the counter changes), and the
list of commands for which a child process was spawned. -/
def executeTerminalCommand (oracle : ExecOracle) (st : EngineState)
    (command : String) (workingDir : String) (interactive : Bool) :
    TerminalResult × EngineState × List String :=
  let processId := "proc_" ++ toString (st.processCounter + 1)
  let st' := { st with processCounter := st.processCounter + 1 }
  match validateCommand command with
  | ⟨false, reason⟩ =>
    ({ success := false, stdout := ""
     , stderr := reason.getD "Command not allowed"
     , exitCode := some (.num (-1)), executionTime := 0
     , processId := some processId, workingDir := workingDir }, st', [])
  | ⟨true, _⟩ =>
    let wd := validateWorkingDir workingDir
    match oracle command interactive with
    | .error msg =>
      ({ success := false, stdout := "", stderr := msg
       , exitCode := some (.num (-1)), executionTime := 0
       , processId := some processId, workingDir := wd }, st', [])
    | .ok outcome =>
      (match outcome with
       | .execDone e so se => nonInteractiveCallbackResult e so se processId wd
       | .closed code so se => interactiveCloseResult code so se processId wd
       | .spawnFailed m so _ => interactiveErrorResult m so processId wd
      , st', [command])

/-! ## Command Dispatcher (`executeTerminalCommands`, `engine.ts` 342–468) -/

/-- A parsed operation: a structured block (its captured body, decoded by the
dispatcher inside the per-block try/catch) or one command line of a plain
block. -/
inductive Operation where
  | jsonBlock (body : String)
  | plainCmd (command : String)
deriving DecidableEq, Repr

/-- A block-level failure result (`success:false`, the message in `stderr`,
exit code -1, base working directory). -/
def errResult (msg : String) : TerminalResult :=
  { success := false, stdout := "", stderr := msg, exitCode := some (.num (-1))
  , executionTime := 0, processId := none, workingDir := TERMINAL_BASE_DIR }

/-- The dispatcher's result for a `list_processes` operation. -/
def listProcessesResult (st : EngineState) : TerminalResult :=
  { success := true, stdout := listActiveProcesses st, stderr := ""
  , exitCode := some (.num 0), executionTime := 0, processId := none
  , workingDir := TERMINAL_BASE_DIR }

/-- The dispatcher's result for a `kill` operation: success iff the message
from `killProcess` carries no failure marker. -/
def killDispatchResult (msg : String) : TerminalResult :=
  { success := !(includesStr msg crossMark)
  , stdout := msg, stderr := ""
  , exitCode := if includesStr msg crossMark then some (.num (-1)) else some (.num 0)
  , executionTime := 0, processId := none, workingDir := TERMINAL_BASE_DIR }

/-- Read a string-valued option field, falling back to a default when the
field is absent (the destructuring defaults of `executeTerminalCommand`).
A present non-string value, which would make `path.resolve` throw into the
block catch, is not modelled (no directive the claims cover carries one). -/
def optStrField (j : Json) (key dflt : String) : String :=
  match jlookup j key with
  | some (.str s) => s
  | _ => dflt

/-- Process one structured block (`engine.ts` 350–453): trim and `JSON.parse`
the captured body, check `operation`, and switch on its lower-cased value;
every throw inside the block (parse error, property access on a non-string)
is absorbed by the catch into a `Terminal command error` result. -/
def dispatchJsonBlock (oracle : ExecOracle) (st : EngineState) (body : String) :
    TerminalResult × EngineState × List String :=
  match jparse (jsTrim body) with
  | .error m => (errResult ("Terminal command error: " ++ m), st, [])
  | .ok j =>
    if jsFalsy (jlookup j "operation") then
      (errResult "Invalid terminal command: missing operation", st, [])
    else
      match jlookup j "operation" with
      | some (.str op) =>
        let lop := toLowerStr op
        if lop == "execute" then
          if jsFalsy (jlookup j "command") then
            (errResult "Execute operation requires command", st, [])
          else
            match jlookup j "command" with
            | some (.str c) =>
              executeTerminalCommand oracle st c (optStrField j "workingDir" TERMINAL_BASE_DIR)
                (!jsFalsy (jlookup j "interactive"))
            | _ => (errResult "Terminal command error: command is not a string", st, [])
        else if lop == "interactive" then
          if jsFalsy (jlookup j "command") then
            (errResult "Interactive operation requires command", st, [])
          else
            match jlookup j "command" with
            | some (.str c) =>
              executeTerminalCommand oracle st c (optStrField j "workingDir" TERMINAL_BASE_DIR)
                true
            | _ => (errResult "Terminal command error: command is not a string", st, [])
        else if lop == "kill" then
          if jsFalsy (jlookup j "processId") then
            (errResult "Kill operation requires processId", st, [])
          else
            match jlookup j "processId" with
            | some (.str processId) =>
              let k := killProcess st processId
              (killDispatchResult k.1, k.2.1, [])
            | _ =>
              -- a truthy non-string processId misses the string-keyed map and
              -- yields the not-found path; modelled as a generic block failure,
              -- not exercised by any claim
              (errResult "Terminal command error: processId is not a string", st, [])
        else if lop == "list_processes" then
          (listProcessesResult st, st, [])
        else
          (errResult ("Unknown terminal operation: " ++ op), st, [])
      | _ => (errResult "Terminal command error: operation is not a string", st, [])

/-- The filter of the plain pass (`engine.ts` line 457): keep lines whose
trimmed form is non-empty and does not start with the comment marker. -/
def plainLineKeep (cmd : String) : Bool :=
  !(jsTrim cmd == "") && !(startsWithStr (jsTrim cmd) "#")

/-- The command lines extracted from one plain-form body (`engine.ts`
456–464): trim the body, split on newlines, filter, and trim each kept line
(the loop re-checks non-emptiness of the trimmed line). -/
def plainBodyCmds (body : String) : List String :=
  ((((splitOnCharS '\n' (jsTrim body))).filter plainLineKeep).map jsTrim).filter
    (fun c => !(c == ""))

/-- The Directive Parser: the structured pass over all matches of the first
regex, followed by the plain pass over all matches of the second regex. -/
def parseOperations (s : String) : List Operation :=
  ((scanBlocksA s).map fun pc => Operation.jsonBlock pc.2)
    ++ ((scanBlocksB s).map fun pc => (plainBodyCmds pc.2).map Operation.plainCmd).flatten

/-- Dispatch one operation. -/
def dispatchOp (oracle : ExecOracle) (st : EngineState) :
    Operation → TerminalResult × EngineState × List String
  | .jsonBlock body => dispatchJsonBlock oracle st body
  | .plainCmd c => executeTerminalCommand oracle st c TERMINAL_BASE_DIR false

/-- Dispatch a sequence of operations in order, threading the engine state
and accumulating one result per operation plus the spawned commands. -/
def dispatchOps (oracle : ExecOracle) (st : EngineState) :
    List Operation → List TerminalResult × EngineState × List String
  | [] => ([], st, [])
  | op :: ops =>
    let r1 := dispatchOp oracle st op
    let rs := dispatchOps oracle r1.2.1 ops
    (r1.1 :: rs.1, rs.2.1, r1.2.2 ++ rs.2.2)

/-- The function `executeTerminalCommands` of `engine.ts`: parse the response text and
dispatch every extracted operation. -/
def executeTerminalCommands (oracle : ExecOracle) (st : EngineState)
    (responseText : String) : List TerminalResult × EngineState × List String :=
  dispatchOps oracle st (parseOperations responseText)

/-! ## Timeout escalation (`engine.ts` 215–225 and 293–303)

After `timeout` ms the runner checks the registry, sends SIGTERM, and
schedules a second check 5000 ms later that sends SIGKILL if the id is still
registered.  The state of one tracked command is whether its OS process is
running and whether its id is in the registry; the callback that resolves the
command's promise removes the id exactly when the process finishes. -/

/-- Registry/liveness state of a single tracked command. -/
structure TimeoutState where
  running : Bool
  registry : Bool
deriving DecidableEq, Repr

/-- The timeout callback: if the id is still registered, SIGTERM is sent; a
process that does not ignore SIGTERM dies, and its completion callback
removes the registry entry. -/
def onTimeout (ignoresSigterm : Bool) (s : TimeoutState) : TimeoutState :=
  if s.registry then
    if s.running && !ignoresSigterm then { running := false, registry := false }
    else s
  else s

/-- The grace-window callback 5000 ms later: if the id is still registered,
SIGKILL is sent; SIGKILL cannot be ignored, and the completion callback then
removes the entry. -/
def onGraceTimer (s : TimeoutState) : TimeoutState :=
  if s.registry then { running := false, registry := false } else s

/-- The error Node's `exec` passes to its callback when the `timeout` option
kills the child: the child died by signal, so `killed` is true and `code` is
null. -/
def timeoutExecError : ExecError :=
  { code := none, message := "Command failed: killed by SIGTERM", killed := true }

/-! ## Output capture (`engine.ts` 190–196 and 248–257) -/

/-- Truncation of captured output to a byte budget (`Buffer` truncation;
modelled per character). -/
def strTake (s : String) (n : Nat) : String := ⟨s.data.take n⟩

/-- Models Node `exec` with the `maxBuffer` option: when the child's stdout
exceeds the budget, Node kills the child and hands the callback an error with
the string code `ERR_CHILD_PROCESS_STDOUT_MAXBUFFER`, together with the
output truncated to the budget; otherwise the callback gets the full output
and no error. -/
def execWithMaxBuffer (fullStdout : String) (maxBuffer : Nat) :
    Option ExecError × String :=
  if maxBuffer < fullStdout.length then
    (some { code := some (.str "ERR_CHILD_PROCESS_STDOUT_MAXBUFFER")
          , message := "stdout maxBuffer length exceeded", killed := true }
    , strTake fullStdout maxBuffer)
  else (none, fullStdout)

/-- The non-interactive result for a command whose full stdout would be
`fullStdout` and that would otherwise exit 0: the composition of the
maxBuffer semantics with the `exec` callback of `engine.ts`. -/
def execModeResult (fullStdout processId workingDir : String) : TerminalResult :=
  let p := execWithMaxBuffer fullStdout MAX_OUTPUT_SIZE
  nonInteractiveCallbackResult p.1 p.2 "" processId workingDir

/-- The interactive capture (`engine.ts` 251–253): `stdout += data` on every
data event, with no size bound. -/
def interactiveAccumulate (chunks : List String) : String :=
  chunks.foldl (fun acc c => acc ++ c) ""

/-! ## Spawn shapes (`engine.ts` 191–196 and 239–246) -/

/-- The process-creation request issued to the OS. -/
structure SpawnCall where
  file : String
  args : List String
  shell : Bool
deriving DecidableEq, Repr

/-- The function `executeInteractiveCommand` splits the command string on spaces, shifts
the first token as the executable, and spawns it directly with the remaining
tokens as arguments — no shell. -/
def interactiveSpawnCall (command : String) : SpawnCall :=
  match splitOnCharL ' ' command.data with
  | [] => { file := "", args := [], shell := false }
  | h :: t => { file := ⟨h⟩, args := t.map (fun l => (⟨l⟩ : String)), shell := false }

/-- The function `executeNonInteractiveCommand` uses `exec`, which runs the whole command
string through the platform shell (`/bin/sh -c command`). -/
def executeSpawnCall (command : String) : SpawnCall :=
  { file := "/bin/sh", args := ["-c", command], shell := true }

/-! ## Background execution (`commands.ts`, `UnifiedCommandExecutor`) -/

/-- The options `executeBackground` passes to `spawn`, plus the `unref` call
that detaches the child from the parent's lifetime. -/
structure BgSpawnCall where
  command : String
  args : List String
  detached : Bool
  unrefCalled : Bool
deriving DecidableEq, Repr

/-- The first lifecycle event of the spawned child: spawn confirmation (with
the OS pid) or a spawn error.  `executeBackground`'s promise resolves on this
event — completion of the child is not an event it listens to. -/
inductive BgEvent where
  | spawnOk (pid : Nat)
  | spawnErr (message : String)
deriving DecidableEq, Repr

/-- The record `CommandResult` of `commands.ts` (`executionTime` fixed to 0). -/
structure CommandResult where
  success : Bool
  output : String
  error : Option String
  command : String
  executionTime : Nat
  pid : Option Nat
deriving DecidableEq, Repr

/-- The method `executeBackground` of `commands.ts` (lines 123–175): spawn detached,
register the child under a fresh `bg_` id, `unref()` it, and resolve on the
spawn event with `success:true` and the pid — on a spawn error, deregister
and resolve with the failure.  Returns the result, the registry (of ids)
after the resolving event, and the spawn request issued. -/
def executeBackground (registry : List String) (newProcessId command : String)
    (e : BgEvent) : CommandResult × List String × BgSpawnCall :=
  let call : BgSpawnCall :=
    { command := command, args := [], detached := true, unrefCalled := true }
  let registryAfterSet := newProcessId :: registry
  match e with
  | .spawnOk pid =>
    ({ success := true
     , output := "Process started in background with PID: " ++ toString pid
         ++ "\nProcess ID: " ++ newProcessId
     , error := none, command := command, executionTime := 0, pid := some pid }
    , registryAfterSet, call)
  | .spawnErr message =>
    ({ success := false, output := "", error := some message, command := command
     , executionTime := 0, pid := none }
    , registryAfterSet.filter (fun i => !(i == newProcessId)), call)

/-! ## Theorems -/

/-- Splitting never yields an empty list of fields. -/
theorem splitOnCharL_ne_nil (sep : Char) (l : List Char) :
    splitOnCharL sep l ≠ [] := by
  cases l with
  | nil => simp [splitOnCharL]
  | cons c cs =>
    simp only [splitOnCharL]
    split
    · simp
    · split <;> simp_all

/-- The join `joinWithChar` is a left inverse of `splitOnCharL`. -/
theorem joinWithChar_splitOnCharL (sep : Char) (l : List Char) :
    joinWithChar sep (splitOnCharL sep l) = l := by
  induction l with
  | nil => rfl
  | cons c cs ih =>
    simp only [splitOnCharL]
    by_cases h : c == sep
    · have hc : c = sep := by simpa using h
      simp only [h, if_true]
      cases hsp : splitOnCharL sep cs with
      | nil => exact absurd hsp (splitOnCharL_ne_nil sep cs)
      | cons h' t' =>
        simp only [joinWithChar]
        rw [← hsp, ih, hc]
        rfl
    · simp only [h, if_false]
      cases hsp : splitOnCharL sep cs with
      | nil => exact absurd hsp (splitOnCharL_ne_nil sep cs)
      | cons h' t' =>
        cases t' with
        | nil =>
          simp only [joinWithChar]
          have := ih
          rw [hsp] at this
          simp only [joinWithChar] at this
          simp [this]
        | cons h'' t'' =>
          simp only [joinWithChar]
          have := ih
          rw [hsp] at this
          simp only [joinWithChar] at this
          simp [this]

/-- Boolean characterization of the safety verdict of `validateCommand`. -/
theorem validateCommand_safe_eq (c : String) :
    (validateCommand c).safe =
      (!DANGEROUS_COMMANDS.any (fun d => includesStr (jsTrim (toLowerStr c)) (toLowerStr d))
       && !(includesStr (jsTrim (toLowerStr c)) "sudo su"
            || includesStr (jsTrim (toLowerStr c)) "su -")
       && !systemCommands.any (fun p => startsWithStr (jsTrim (toLowerStr c)) p)) := by
  simp only [validateCommand]
  cases hfind : DANGEROUS_COMMANDS.find?
      (fun d => includesStr (jsTrim (toLowerStr c)) (toLowerStr d)) with
  | some d =>
    have hp := List.find?_some hfind
    have hany : DANGEROUS_COMMANDS.any
        (fun d => includesStr (jsTrim (toLowerStr c)) (toLowerStr d)) = true :=
      List.any_eq_true.mpr ⟨d, List.mem_of_find?_eq_some hfind, hp⟩
    simp [hany]
  | none =>
    have hall := List.find?_eq_none.mp hfind
    have hany : DANGEROUS_COMMANDS.any
        (fun d => includesStr (jsTrim (toLowerStr c)) (toLowerStr d)) = false := by
      simp only [List.any_eq_false]
      intro x hx
      simpa using hall x hx
    by_cases hpriv : (includesStr (jsTrim (toLowerStr c)) "sudo su"
        || includesStr (jsTrim (toLowerStr c)) "su -") = true
    · simp [hany, hpriv]
    · by_cases hsys : systemCommands.any
          (fun p => startsWithStr (jsTrim (toLowerStr c)) p) = true
      · simp [hany, hpriv, hsys]
      · simp [hany, hpriv, hsys]

/-- Claim C1 (counterexample): the command "passwdx" contains no deny-listed
substring and no privilege-escalation substring, and its leading token is not
one of the system-account-mutation commands, so the claim as stated demands
safe=true; the code nevertheless rejects it, because the source tests a string
prefix ("passwdx".startsWith "passwd")), not the leading token. -/
theorem C1_counterexample :
    (validateCommand "passwdx").safe = false
    ∧ (∀ d ∈ DANGEROUS_COMMANDS,
        includesStr (jsTrim (toLowerStr "passwdx")) (toLowerStr d) = false)
    ∧ includesStr (jsTrim (toLowerStr "passwdx")) "sudo su" = false
    ∧ includesStr (jsTrim (toLowerStr "passwdx")) "su -" = false
    ∧ leadingToken "passwdx" ∉ systemCommands := by decide

/-- Claim C1 (amended): validateCommand returns safe=true iff the lower-cased
trimmed command contains no deny-list entry (the deny-list containing the
listed destructive patterns), contains neither "sudo su" nor "su -", and does
not START WITH (string prefix, not leading token) any of
passwd/usermod/userdel/groupmod. -/
theorem C1_validateCommand_characterization :
    (∀ c : String, (validateCommand c).safe = true ↔
      ((∀ d ∈ DANGEROUS_COMMANDS,
          includesStr (jsTrim (toLowerStr c)) (toLowerStr d) = false)
       ∧ includesStr (jsTrim (toLowerStr c)) "sudo su" = false
       ∧ includesStr (jsTrim (toLowerStr c)) "su -" = false
       ∧ (∀ p ∈ systemCommands, startsWithStr (jsTrim (toLowerStr c)) p = false)))
    ∧ (∀ d ∈ ([ "rm -rf /", "mkfs", "dd if=", "shutdown", "reboot", "halt"
             , ":()\x7b :|:& \x7d;:", "chmod -R 777 /", "chown -R root /"] : List String),
        d ∈ DANGEROUS_COMMANDS) := by
  refine ⟨fun c => ?_, by decide⟩
  rw [validateCommand_safe_eq c]
  simp [List.any_eq_false, and_assoc]

/-- Claim C2: for every platform behaviour (including one that throws inside
command execution), the dispatcher returns exactly one result per operation
(equal length, total — no exception escapes), and processes operations
strictly in input order, each independently: the results of a prefix are a
prefix of the results of the whole sequence, whatever the earlier operations
produced. -/
theorem C2_dispatch_total_and_ordered :
    (∀ (oracle : ExecOracle) (st : EngineState) (ops : List Operation),
      (dispatchOps oracle st ops).1.length = ops.length)
    ∧ (∀ (oracle : ExecOracle) (st : EngineState) (ops1 ops2 : List Operation),
      (dispatchOps oracle st (ops1 ++ ops2)).1 =
        (dispatchOps oracle st ops1).1
          ++ (dispatchOps oracle (dispatchOps oracle st ops1).2.1 ops2).1) := by
  constructor
  · intro oracle st ops
    induction ops generalizing st with
    | nil => rfl
    | cons op ops ih => simp [dispatchOps, ih]
  · intro oracle st ops1 ops2
    induction ops1 generalizing st with
    | nil => rfl
    | cons op ops ih => simp [dispatchOps, ih]

/-- Claim C3 (counterexample): when the timeout kills an execute command, the
exec callback's error carries a null code, and the result construction maps
it through the falsy-default to -1 — the returned exitCode is -1, not null
(success is false as claimed). -/
theorem C3_counterexample :
    (nonInteractiveCallbackResult (some timeoutExecError) "" "" "proc_1" TERMINAL_BASE_DIR).exitCode
        = some (.num (-1))
    ∧ (nonInteractiveCallbackResult (some timeoutExecError) "" "" "proc_1" TERMINAL_BASE_DIR).exitCode
        ≠ none
    ∧ (nonInteractiveCallbackResult (some timeoutExecError) "" "" "proc_1" TERMINAL_BASE_DIR).success
        = false := by decide

/-- Claim C3 (amended): a timed-out execute command yields success=false and
exitCode=-1 (not null); and under the SIGTERM-then-SIGKILL escalation the
process is no longer running once the grace window has elapsed, provided the
registry entry still tracked the process at the timeout (no intervening kill
removed it). -/
theorem C3_timeout_result_and_escalation :
    (∀ (e : ExecError) (stdout stderr processId workingDir : String),
      e.code = none →
      (nonInteractiveCallbackResult (some e) stdout stderr processId workingDir).success = false
      ∧ (nonInteractiveCallbackResult (some e) stdout stderr processId workingDir).exitCode
          = some (.num (-1)))
    ∧ (∀ (ignoresSigterm : Bool) (s : TimeoutState),
      s.registry = s.running →
      (onGraceTimer (onTimeout ignoresSigterm s)).running = false) := by
  constructor
  · intro e so se processId wd hcode
    simp [nonInteractiveCallbackResult, hcode, jsCodeOrNeg1]
  · intro ig s h
    cases s with
    | mk running registry =>
      simp only at h
      subst h
      cases registry <;> cases ig <;> simp [onTimeout, onGraceTimer]

/-- Witness for C3 at the concrete timeout error and a SIGTERM-ignoring process. -/
theorem C3_witness :
    ((nonInteractiveCallbackResult (some timeoutExecError) "" "" "proc_9" TERMINAL_BASE_DIR).success
        = false
      ∧ (nonInteractiveCallbackResult (some timeoutExecError) "" "" "proc_9" TERMINAL_BASE_DIR).exitCode
        = some (.num (-1)))
    ∧ (onGraceTimer (onTimeout true ⟨true, true⟩)).running = false :=
  ⟨C3_timeout_result_and_escalation.1 timeoutExecError "" "" "proc_9" TERMINAL_BASE_DIR rfl,
   C3_timeout_result_and_escalation.2 true ⟨true, true⟩ rfl⟩

/-- A deleted id can no longer be looked up. -/
theorem lookupProc_removeProc (st : EngineState) (processId : String) :
    lookupProc (removeProc st processId) processId = none := by
  have hfil : (st.activeProcesses.filter (fun e => !(e.1 == processId))).find?
      (fun e => e.1 == processId) = none := by
    rw [List.find?_eq_none]
    intro x hx
    have hx2 := (List.mem_filter.mp hx).2
    simpa using hx2
  simp [lookupProc, removeProc, hfil]

/-- Claim C4 (code bug): killProcess deletes the registry entry synchronously
before returning, so the 5000 ms grace-window callback's guard
activeProcesses.has(id) is false whenever it fires and the SIGKILL is never
sent — for every state and id.  Concretely, for a tracked process that
ignores SIGTERM, killProcess reports success, the entry is gone, the SIGKILL
check is scheduled but fires negatively, and the OS process is still running
after the grace window — contradicting the claim that the forceful kill is
sent iff the process has not exited within the window. -/
theorem C4_sigkill_never_fires :
    (∀ (st : EngineState) (processId : String),
      graceKillFires (killProcess st processId).2.1 (killProcess st processId).2.2 = false)
    ∧ (let handle : ProcHandle :=
        { pid := 4242, killed := false, running := true, ignoresSigterm := true
        , killError := none }
       let st : EngineState := { activeProcesses := [("proc_1", handle)], processCounter := 1 }
       (killProcess st "proc_1").1 = checkMark ++ " Process proc_1 terminated"
       ∧ lookupProc (killProcess st "proc_1").2.1 "proc_1" = none
       ∧ (killProcess st "proc_1").2.2 = some "proc_1"
       ∧ graceKillFires (killProcess st "proc_1").2.1 (killProcess st "proc_1").2.2 = false
       ∧ runningAfterWindow handle
           (graceKillFires (killProcess st "proc_1").2.1 (killProcess st "proc_1").2.2) = true) := by
  constructor
  · intro st processId
    unfold killProcess
    cases hl : lookupProc st processId with
    | none => rfl
    | some h =>
      cases hke : h.killError with
      | some m => simp [hke, graceKillFires]
      | none => simp [hke, graceKillFires, lookupProc_removeProc]
  · decide

/-- Claim C5 (counterexample): the structured block whose body is
\x7b"operation":"execute"\x7d (no command) also matches the plain-form
regex, so besides the missing-command failure result the dispatcher executes
the JSON text itself as a shell command — a child process IS spawned for this
input, and a background operation without a command is rejected as an unknown
operation, not with a missing-command message. -/
theorem C5_counterexample :
    parseOperations "\x60\x60\x60terminal\n\x7b\"operation\":\"execute\"\x7d\n\x60\x60\x60"
      = [Operation.jsonBlock "\x7b\"operation\":\"execute\"\x7d",
         Operation.plainCmd "\x7b\"operation\":\"execute\"\x7d"]
    ∧ (executeTerminalCommands (fun _ _ => .ok (.execDone none "" ""))
        { activeProcesses := [], processCounter := 0 }
        "\x60\x60\x60terminal\n\x7b\"operation\":\"execute\"\x7d\n\x60\x60\x60").2.2
      = ["\x7b\"operation\":\"execute\"\x7d"]
    ∧ (executeTerminalCommands (fun _ _ => .ok (.execDone none "" ""))
        { activeProcesses := [], processCounter := 0 }
        "\x60\x60\x60terminal\n\x7b\"operation\":\"execute\"\x7d\n\x60\x60\x60").1.head?
      = some (errResult "Execute operation requires command")
    ∧ (dispatchJsonBlock (fun _ _ => .ok (.execDone none "" ""))
        { activeProcesses := [], processCounter := 0 }
        "\x7b\"operation\":\"background\"\x7d").1.stderr
      = "Unknown terminal operation: background" := by decide

/-- Claim C5 (amended): an execute or interactive operation whose command
field is missing (or falsy) is rejected by the structured pass before
execution — success=false, a message naming the missing command, engine state
untouched, and no process spawned by that operation; a background operation
is instead rejected as an unknown operation regardless of its command
field. -/
theorem C5_missing_command_rejection :
    (∀ (oracle : ExecOracle) (st : EngineState) (body : String) (j : Json),
      jparse (jsTrim body) = .ok j →
      jlookup j "operation" = some (.str "execute") →
      jsFalsy (jlookup j "command") = true →
      dispatchJsonBlock oracle st body
        = (errResult "Execute operation requires command", st, []))
    ∧ (∀ (oracle : ExecOracle) (st : EngineState) (body : String) (j : Json),
      jparse (jsTrim body) = .ok j →
      jlookup j "operation" = some (.str "interactive") →
      jsFalsy (jlookup j "command") = true →
      dispatchJsonBlock oracle st body
        = (errResult "Interactive operation requires command", st, []))
    ∧ (∀ (oracle : ExecOracle) (st : EngineState) (body : String) (j : Json) (op : String),
      jparse (jsTrim body) = .ok j →
      jlookup j "operation" = some (.str op) →
      toLowerStr op = "background" →
      dispatchJsonBlock oracle st body
        = (errResult ("Unknown terminal operation: " ++ op), st, [])) := by
  refine ⟨?_, ?_, ?_⟩
  · intro oracle st body j hparse hop hcmd
    simp only [dispatchJsonBlock, hparse, hop, hcmd,
      show jsFalsy (some (Json.str "execute")) = false from rfl,
      show (toLowerStr "execute" == "execute") = true from rfl,
      Bool.false_eq_true, if_false, if_true]
  · intro oracle st body j hparse hop hcmd
    simp only [dispatchJsonBlock, hparse, hop, hcmd,
      show jsFalsy (some (Json.str "interactive")) = false from rfl,
      show (toLowerStr "interactive" == "execute") = false from rfl,
      show (toLowerStr "interactive" == "interactive") = true from rfl,
      Bool.false_eq_true, if_false, if_true]
  · intro oracle st body j op hparse hop hlop
    have hne : jsFalsy (some (Json.str op)) = false := by
      by_cases h : op = ""
      · subst h
        exact absurd hlop (by decide)
      · simp [jsFalsy, h]
    simp only [dispatchJsonBlock, hparse, hop, hlop, hne,
      show (("background" : String) == "execute") = false from rfl,
      show (("background" : String) == "interactive") = false from rfl,
      show (("background" : String) == "kill") = false from rfl,
      show (("background" : String) == "list_processes") = false from rfl,
      Bool.false_eq_true, if_false, if_true]

/-- Witness for C5 at the three concrete directive bodies. -/
theorem C5_witness :
    dispatchJsonBlock (fun _ _ => .ok (.execDone none "" ""))
        { activeProcesses := [], processCounter := 0 } "\x7b\"operation\":\"execute\"\x7d"
      = (errResult "Execute operation requires command",
         { activeProcesses := [], processCounter := 0 }, [])
    ∧ dispatchJsonBlock (fun _ _ => .ok (.execDone none "" ""))
        { activeProcesses := [], processCounter := 0 } "\x7b\"operation\":\"interactive\"\x7d"
      = (errResult "Interactive operation requires command",
         { activeProcesses := [], processCounter := 0 }, [])
    ∧ dispatchJsonBlock (fun _ _ => .ok (.execDone none "" ""))
        { activeProcesses := [], processCounter := 0 } "\x7b\"operation\":\"background\"\x7d"
      = (errResult ("Unknown terminal operation: " ++ "background"),
         { activeProcesses := [], processCounter := 0 }, []) :=
  ⟨C5_missing_command_rejection.1 _ _ _ (.obj [("operation", .str "execute")]) rfl rfl rfl,
   C5_missing_command_rejection.2.1 _ _ _ (.obj [("operation", .str "interactive")]) rfl rfl rfl,
   C5_missing_command_rejection.2.2 _ _ _ (.obj [("operation", .str "background")])
     "background" rfl rfl rfl⟩

/-- Every list is a prefix of itself. -/
theorem isPref_self (l : List Char) : isPref l l = true := by
  induction l with
  | nil => rfl
  | cons c cs ih => simp [isPref, ih]

/-- A suffix is a substring. -/
theorem containsSub_suffix (pre needle : List Char) :
    containsSub needle (pre ++ needle) = true := by
  induction pre with
  | nil =>
    cases needle with
    | nil => rfl
    | cons c cs => simp [containsSub, isPref_self]
  | cons c cs ih => simp [containsSub, ih]

/-- Claim C6 (counterexample): a background operation carrying a command is
not spawned by the dispatcher at all — the dispatcher's switch has no
background case, so the result is success=false with an unknown-operation
message and no processId, contradicting the claimed success=true with an
assigned processId. -/
theorem C6_counterexample :
    (dispatchJsonBlock (fun _ _ => .ok (.execDone none "" ""))
        { activeProcesses := [], processCounter := 0 }
        "\x7b\"operation\":\"background\",\"command\":\"sleep 100\"\x7d").1.success = false
    ∧ (dispatchJsonBlock (fun _ _ => .ok (.execDone none "" ""))
        { activeProcesses := [], processCounter := 0 }
        "\x7b\"operation\":\"background\",\"command\":\"sleep 100\"\x7d").1.stderr
      = "Unknown terminal operation: background"
    ∧ (dispatchJsonBlock (fun _ _ => .ok (.execDone none "" ""))
        { activeProcesses := [], processCounter := 0 }
        "\x7b\"operation\":\"background\",\"command\":\"sleep 100\"\x7d").1.processId = none
    ∧ (dispatchJsonBlock (fun _ _ => .ok (.execDone none "" ""))
        { activeProcesses := [], processCounter := 0 }
        "\x7b\"operation\":\"background\",\"command\":\"sleep 100\"\x7d").2.2 = [] := by decide

/-- Claim C6 (amended): the engine dispatcher rejects background operations
as unknown (success=false, nothing spawned); detached background spawning
exists only in UnifiedCommandExecutor.executeBackground of commands.ts (a
module nothing imports), which spawns with detached:true, calls unref(),
registers the child under the fresh id, and resolves on the spawn
confirmation — not on completion — with success=true, the pid, and the
process id in the output; a spawn error deregisters the id and resolves with
success=false. -/
theorem C6_background_semantics :
    (∀ (oracle : ExecOracle) (st : EngineState) (body : String) (j : Json) (op cmd : String),
      jparse (jsTrim body) = .ok j →
      jlookup j "operation" = some (.str op) →
      toLowerStr op = "background" →
      jlookup j "command" = some (.str cmd) →
      dispatchJsonBlock oracle st body
        = (errResult ("Unknown terminal operation: " ++ op), st, []))
    ∧ (∀ (registry : List String) (newProcessId command : String) (pid : Nat),
      (executeBackground registry newProcessId command (.spawnOk pid)).1.success = true
      ∧ (executeBackground registry newProcessId command (.spawnOk pid)).1.pid = some pid
      ∧ includesStr (executeBackground registry newProcessId command (.spawnOk pid)).1.output
          newProcessId = true
      ∧ newProcessId ∈ (executeBackground registry newProcessId command (.spawnOk pid)).2.1
      ∧ (executeBackground registry newProcessId command (.spawnOk pid)).2.2.detached = true
      ∧ (executeBackground registry newProcessId command (.spawnOk pid)).2.2.unrefCalled = true)
    ∧ (∀ (registry : List String) (newProcessId command message : String),
      (executeBackground registry newProcessId command (.spawnErr message)).1.success = false
      ∧ newProcessId ∉ (executeBackground registry newProcessId command (.spawnErr message)).2.1) := by
  refine ⟨?_, ?_, ?_⟩
  · intro oracle st body j op cmd hparse hop hlop hcmd
    have hne : jsFalsy (some (Json.str op)) = false := by
      by_cases h : op = ""
      · subst h
        exact absurd hlop (by decide)
      · simp [jsFalsy, h]
    simp only [dispatchJsonBlock, hparse, hop, hlop, hne,
      show (("background" : String) == "execute") = false from rfl,
      show (("background" : String) == "interactive") = false from rfl,
      show (("background" : String) == "kill") = false from rfl,
      show (("background" : String) == "list_processes") = false from rfl,
      Bool.false_eq_true, if_false, if_true]
  · intro registry newProcessId command pid
    refine ⟨rfl, rfl, ?_, ?_, rfl, rfl⟩
    · simp only [executeBackground, includesStr]
      rw [String.data_append]
      exact containsSub_suffix _ _
    · exact List.mem_cons_self _ _
  · intro registry newProcessId command message
    refine ⟨rfl, ?_⟩
    intro hmem
    have := (List.mem_filter.mp hmem).2
    simp at this

/-- Witness for C6 at a concrete background directive and concrete spawns. -/
theorem C6_witness :
    dispatchJsonBlock (fun _ _ => .ok (.execDone none "" ""))
        { activeProcesses := [], processCounter := 0 }
        "\x7b\"operation\":\"background\",\"command\":\"sleep 100\"\x7d"
      = (errResult ("Unknown terminal operation: " ++ "background"),
         { activeProcesses := [], processCounter := 0 }, [])
    ∧ ((executeBackground [] "bg_1" "sleep 100" (.spawnOk 777)).1.success = true
      ∧ (executeBackground [] "bg_1" "sleep 100" (.spawnOk 777)).1.pid = some 777
      ∧ includesStr (executeBackground [] "bg_1" "sleep 100" (.spawnOk 777)).1.output "bg_1" = true
      ∧ "bg_1" ∈ (executeBackground [] "bg_1" "sleep 100" (.spawnOk 777)).2.1
      ∧ (executeBackground [] "bg_1" "sleep 100" (.spawnOk 777)).2.2.detached = true
      ∧ (executeBackground [] "bg_1" "sleep 100" (.spawnOk 777)).2.2.unrefCalled = true)
    ∧ ((executeBackground [] "bg_1" "sleep 100" (.spawnErr "ENOENT")).1.success = false
      ∧ "bg_1" ∉ (executeBackground [] "bg_1" "sleep 100" (.spawnErr "ENOENT")).2.1) :=
  ⟨C6_background_semantics.1 _ _ _
      (.obj [("operation", .str "background"), ("command", .str "sleep 100")])
      "background" "sleep 100" rfl rfl rfl rfl,
   C6_background_semantics.2.1 [] "bg_1" "sleep 100" 777,
   C6_background_semantics.2.2 [] "bg_1" "sleep 100" "ENOENT"⟩

/-- Dropping a prefix cannot lengthen a list. -/
theorem dropWhileLengthLe (p : Char → Bool) (l : List Char) :
    (l.dropWhile p).length ≤ l.length := by
  induction l with
  | nil => simp
  | cons c cs ih =>
    by_cases h : p c
    · simp only [List.dropWhile, h, List.length_cons]
      omega
    · simp [List.dropWhile, h]

/-- A prefix is no longer than the whole. -/
theorem isPref_length_le (p l : List Char) (h : isPref p l = true) :
    p.length ≤ l.length := by
  induction p generalizing l with
  | nil => simp
  | cons a as ih =>
    cases l with
    | nil => simp [isPref] at h
    | cons b bs =>
      simp only [isPref, Bool.and_eq_true] at h
      simpa using ih bs h.2

/-- Consuming the opening fence removes exactly three characters. -/
theorem dropTicks_length (l r : List Char) (h : dropTicks l = some r) :
    r.length + 3 ≤ l.length := by
  simp only [dropTicks] at h
  split at h
  · next hp =>
    have h3 : (3 : Nat) ≤ l.length := isPref_length_le ticks l hp
    cases h
    simp
    omega
  · cases h

/-- Consuming a tag cannot lengthen the rest. -/
theorem matchTag_length (l r : List Char) (h : matchTag l = some r) :
    r.length ≤ l.length := by
  simp only [matchTag] at h
  split at h
  · cases h
    simp
  · cases h

/-- Consuming the closing fence cannot lengthen the rest. -/
theorem closeTicksAfterWs_length (l r : List Char) (h : closeTicksAfterWs l = some r) :
    r.length ≤ l.length := by
  simp only [closeTicksAfterWs] at h
  split at h
  · cases h
    calc ((l.dropWhile isWs).drop 3).length ≤ (l.dropWhile isWs).length := by simp
      _ ≤ l.length := dropWhileLengthLe _ _
  · cases h

/-- The lazy body search of the structured form returns a suffix. -/
theorem lazyCloseA_length (l : List Char) : ∀ (acc cap r : List Char),
    lazyCloseA acc l = some (cap, r) → r.length ≤ l.length := by
  induction l with
  | nil => intro acc cap r h; simp [lazyCloseA] at h
  | cons c cs ih =>
    intro acc cap r h
    simp only [lazyCloseA] at h
    split at h
    · cases hcl : closeTicksAfterWs cs with
      | some rest =>
        rw [hcl] at h
        cases h
        have := closeTicksAfterWs_length cs r hcl
        simp
        omega
      | none =>
        rw [hcl] at h
        have := ih (c :: acc) cap r h
        simp
        omega
    · have := ih (c :: acc) cap r h
      simp
      omega

/-- A structured-form match consumes at least one character. -/
theorem matchA_length (l cap r : List Char) (h : matchA l = some (cap, r)) :
    r.length < l.length := by
  unfold matchA at h
  cases h1 : dropTicks l with
  | none => simp [h1] at h
  | some l1 =>
    simp only [h1] at h
    cases h2 : matchTag l1 with
    | none => simp [h2] at h
    | some l2 =>
      simp only [h2] at h
      cases h3 : l2.dropWhile isWs with
      | nil => simp [h3] at h
      | cons c l4 =>
        simp only [h3] at h
        by_cases hc : (c == '\x7b') = true
        · rw [if_pos hc] at h
          cases h4 : lazyCloseA [] l4 with
          | none => simp [h4] at h
          | some p =>
            cases p with
            | mk inner rest =>
              simp only [h4, Option.some.injEq, Prod.mk.injEq] at h
              have hr : rest = r := h.2
              subst hr
              have e1 := dropTicks_length l l1 h1
              have e2 := matchTag_length l1 l2 h2
              have e3 : (c :: l4).length ≤ l2.length := by
                rw [← h3]; exact dropWhileLengthLe _ _
              have e4 := lazyCloseA_length l4 [] inner rest h4
              simp only [List.length_cons] at e3
              omega
        · rw [if_neg hc] at h
          cases h
/-- The lazy body search of the plain form returns a suffix. -/
theorem lazyCloseB_length (l : List Char) : ∀ (acc cap r : List Char),
    lazyCloseB acc l = some (cap, r) → r.length ≤ l.length := by
  induction l with
  | nil => intro acc cap r h; simp [lazyCloseB] at h
  | cons c cs ih =>
    intro acc cap r h
    simp only [lazyCloseB] at h
    split at h
    · cases h
      simp
      omega
    · have := ih (c :: acc) cap r h
      simp
      omega

/-- A successful backtracking search succeeds on some candidate. -/
theorem firstSome_some {α β : Type} (f : α → Option β) (l : List α) (b : β)
    (h : firstSome f l = some b) : ∃ a ∈ l, f a = some b := by
  induction l with
  | nil => simp [firstSome] at h
  | cons a as ih =>
    simp only [firstSome] at h
    cases hfa : f a with
    | some b' =>
      rw [hfa] at h
      cases h
      exact ⟨a, List.mem_cons_self a as, hfa⟩
    | none =>
      rw [hfa] at h
      obtain ⟨a', ha', hfa'⟩ := ih h
      exact ⟨a', List.mem_cons_of_mem a ha', hfa'⟩

/-- A plain-form match consumes at least one character. -/
theorem matchB_length (l cap r : List Char) (h : matchB l = some (cap, r)) :
    r.length < l.length := by
  simp only [matchB] at h
  cases h1 : dropTicks l with
  | none => rw [h1] at h; cases h
  | some l1 =>
    rw [h1] at h
    dsimp only [] at h
    cases h2 : matchTag l1 with
    | none => rw [h2] at h; cases h
    | some l2 =>
      rw [h2] at h
      dsimp only [] at h
      obtain ⟨i, _, hlb⟩ := firstSome_some _ _ _ h
      have e4 := lazyCloseB_length (l2.drop (i + 1)) [] cap r hlb
      have e1 := dropTicks_length l l1 h1
      have e2 := matchTag_length l1 l2 h2
      have e5 : (l2.drop (i + 1)).length ≤ l2.length := by simp
      omega

/-- A global scan with a consuming matcher emits matches at strictly
increasing positions, all at or after the starting position. -/
theorem scanWith_bounds (m : List Char → Option (List Char × List Char))
    (hm : ∀ l cap rest, m l = some (cap, rest) → rest.length < l.length) :
    ∀ (fuel pos : Nat) (l : List Char),
      (∀ q ∈ (scanWith m fuel pos l).map Prod.fst, pos ≤ q)
      ∧ (scanWith m fuel pos l).Pairwise (fun a b => a.1 < b.1) := by
  intro fuel
  induction fuel with
  | zero =>
    intro pos l
    constructor
    · intro q hq
      simp [scanWith] at hq
    · simp [scanWith]
  | succ fuel ih =>
    intro pos l
    cases hmatch : m l with
    | some p =>
      cases p with
      | mk cap rest =>
        have hlt := hm l cap rest hmatch
        constructor
        · intro q hq
          simp only [scanWith, hmatch, List.map_cons, List.mem_cons] at hq
          rcases hq with h | h
          · omega
          · have := (ih (pos + (l.length - rest.length)) rest).1 q h
            omega
        · simp only [scanWith, hmatch]
          refine List.Pairwise.cons ?_ (ih (pos + (l.length - rest.length)) rest).2
          intro b hb
          have hb1 : b.1 ∈ (scanWith m fuel (pos + (l.length - rest.length)) rest).map
              Prod.fst := List.mem_map_of_mem Prod.fst hb
          have := (ih (pos + (l.length - rest.length)) rest).1 b.1 hb1
          simp only
          omega
    | none =>
      cases l with
      | nil =>
        constructor
        · intro q hq
          simp [scanWith, hmatch] at hq
        · simp [scanWith, hmatch]
      | cons c tl =>
        constructor
        · intro q hq
          simp only [scanWith, hmatch] at hq
          have := (ih (pos + 1) tl).1 q hq
          omega
        · simp only [scanWith, hmatch]
          exact (ih (pos + 1) tl).2

/-- Filtering on the trimmed line then trimming equals trimming then filtering. -/
theorem mapTrimFilter (lines : List String) :
    ((lines.filter plainLineKeep).map jsTrim)
      = (lines.map jsTrim).filter (fun l => !(l == "") && !(startsWithStr l "#")) := by
  induction lines with
  | nil => rfl
  | cons c cs ih =>
    simp only [List.filter_cons, List.map_cons]
    have hc : (!(jsTrim c == "") && !(startsWithStr (jsTrim c) "#")) = plainLineKeep c := rfl
    rw [hc]
    by_cases h : plainLineKeep c = true
    · simp only [h, if_true, List.map_cons, ih]
    · simp only [Bool.not_eq_true] at h
      simp only [h, Bool.false_eq_true, if_false, ih]

/-- The loop's re-check of non-emptiness is absorbed by the filter. -/
theorem filterNonEmptyAbsorb (l : List String) :
    ((l.filter (fun x => !(x == "") && !(startsWithStr x "#"))).filter (fun c => !(c == "")))
      = l.filter (fun x => !(x == "") && !(startsWithStr x "#")) := by
  apply List.filter_eq_self.mpr
  intro x hx
  have hq := (List.mem_filter.mp hx).2
  simp only [Bool.and_eq_true] at hq
  exact hq.1

/-- Claim C7 (counterexample): for a text holding a plain block followed by a
structured block, the first result comes from the SECOND block (the
structured pass runs first), and the structured block is processed twice —
once as JSON and once as a plain command line — so the output is neither in
order of appearance nor one result set per block. -/
theorem C7_counterexample :
    parseOperations
        "\x60\x60\x60bash\npwd\n\x60\x60\x60\n\x60\x60\x60terminal\n\x7b\"operation\":\"list_processes\"\x7d\n\x60\x60\x60"
      = [Operation.jsonBlock "\x7b\"operation\":\"list_processes\"\x7d",
         Operation.plainCmd "pwd",
         Operation.plainCmd "\x7b\"operation\":\"list_processes\"\x7d"]
    ∧ (parseOperations
        "\x60\x60\x60bash\npwd\n\x60\x60\x60\n\x60\x60\x60terminal\n\x7b\"operation\":\"list_processes\"\x7d\n\x60\x60\x60").head?
      ≠ some (Operation.plainCmd "pwd")
    ∧ parseOperations
        "\x60\x60\x60bash\npwd\n\x60\x60\x60\n\x60\x60\x60terminal\n\x7b\"operation\":\"list_processes\"\x7d\n\x60\x60\x60"
      ≠ [Operation.plainCmd "pwd",
         Operation.jsonBlock "\x7b\"operation\":\"list_processes\"\x7d"] := by decide

/-- Claim C7 (amended): the parser processes all structured-form matches
first and all plain-form matches second; within each pass, matches are taken
at strictly increasing positions (order of appearance preserved per pass); a
block matching both surface forms is processed by both passes; and within a
plain block the executed commands are exactly the trimmed lines that are
non-blank and do not start with the comment marker, in order. -/
theorem C7_two_pass_order :
    (∀ s : String,
      (scanBlocksA s).Pairwise (fun a b => a.1 < b.1)
      ∧ (scanBlocksB s).Pairwise (fun a b => a.1 < b.1)
      ∧ parseOperations s
          = (((scanBlocksA s).map fun pc => Operation.jsonBlock pc.2)
            ++ ((scanBlocksB s).map fun pc =>
                  (plainBodyCmds pc.2).map Operation.plainCmd).flatten))
    ∧ (∀ body : String,
      plainBodyCmds body
        = ((splitOnCharS '\n' (jsTrim body)).map jsTrim).filter
            (fun l => !(l == "") && !(startsWithStr l "#"))) := by
  constructor
  · intro s
    refine ⟨?_, ?_, rfl⟩
    · exact List.Pairwise.map _ (fun a b h => h)
        (scanWith_bounds matchA matchA_length (s.data.length + 1) 0 s.data).2
    · exact List.Pairwise.map _ (fun a b h => h)
        (scanWith_bounds matchB matchB_length (s.data.length + 1) 0 s.data).2
  · intro body
    unfold plainBodyCmds
    rw [mapTrimFilter, filterNonEmptyAbsorb]

/-- Shape of an execute result whose full output overflows the byte cap. -/
theorem execModeResult_overflow (s processId workingDir : String)
    (h : MAX_OUTPUT_SIZE < s.length) :
    (execModeResult s processId workingDir).success = false
    ∧ (execModeResult s processId workingDir).stdout = strTake s MAX_OUTPUT_SIZE
    ∧ (execModeResult s processId workingDir).stdout.length = MAX_OUTPUT_SIZE
    ∧ (execModeResult s processId workingDir).exitCode
        = some (.str "ERR_CHILD_PROCESS_STDOUT_MAXBUFFER") := by
  have hs : execWithMaxBuffer s MAX_OUTPUT_SIZE
      = (some { code := some (.str "ERR_CHILD_PROCESS_STDOUT_MAXBUFFER")
              , message := "stdout maxBuffer length exceeded", killed := true }
        , strTake s MAX_OUTPUT_SIZE) := by
    unfold execWithMaxBuffer
    rw [if_pos h]
  have he : execModeResult s processId workingDir
      = nonInteractiveCallbackResult
          (some { code := some (.str "ERR_CHILD_PROCESS_STDOUT_MAXBUFFER")
                , message := "stdout maxBuffer length exceeded", killed := true })
          (strTake s MAX_OUTPUT_SIZE) "" processId workingDir := by
    unfold execModeResult
    rw [hs]
  have hlen : (strTake s MAX_OUTPUT_SIZE).length = MAX_OUTPUT_SIZE := by
    have h1 : (strTake s MAX_OUTPUT_SIZE).length = min MAX_OUTPUT_SIZE s.data.length :=
      List.length_take MAX_OUTPUT_SIZE s.data
    have h2 : s.length = s.data.length := rfl
    rw [h1]
    omega
  refine ⟨?_, ?_, ?_, ?_⟩
  · rw [he]
    rfl
  · rw [he]
    rfl
  · rw [he]
    exact hlen
  · rw [he]
    rfl

/-- Claim C8 (counterexample): a command whose stdout is one character over
the 1 MiB cap does NOT keep success unaffected — Node kills the child and the
callback receives a maxBuffer error, so success=false — and the captured
stdout is the bare truncated prefix with no truncation marker appended. -/
theorem C8_counterexample :
    (execModeResult (String.mk (List.replicate (MAX_OUTPUT_SIZE + 1) 'a'))
        "proc_1" TERMINAL_BASE_DIR).success = false
    ∧ (execModeResult (String.mk (List.replicate (MAX_OUTPUT_SIZE + 1) 'a'))
        "proc_1" TERMINAL_BASE_DIR).stdout.data = List.replicate MAX_OUTPUT_SIZE 'a' := by
  have hlen : MAX_OUTPUT_SIZE
      < (String.mk (List.replicate (MAX_OUTPUT_SIZE + 1) 'a')).length := by
    show MAX_OUTPUT_SIZE < (List.replicate (MAX_OUTPUT_SIZE + 1) 'a').length
    simp
  obtain ⟨h1, h2, _, _⟩ :=
    execModeResult_overflow (String.mk (List.replicate (MAX_OUTPUT_SIZE + 1) 'a'))
      "proc_1" TERMINAL_BASE_DIR hlen
  refine ⟨h1, ?_⟩
  rw [h2]
  show (List.replicate (MAX_OUTPUT_SIZE + 1) 'a').take MAX_OUTPUT_SIZE
      = List.replicate MAX_OUTPUT_SIZE 'a'
  rw [List.take_replicate,
    min_eq_left (by omega : MAX_OUTPUT_SIZE ≤ MAX_OUTPUT_SIZE + 1)]

/-- Claim C8 (amended): in execute mode output beyond the 1 MiB cap is
truncated to exactly the cap (capture never exceeds it) but IS surfaced as an
error — success=false with the maxBuffer error code and no marker in stdout;
output within the cap passes through with success unaffected; interactive
mode accumulates all data events unbounded, with no cap at all. -/
theorem C8_output_capture :
    (∀ (s processId workingDir : String),
      MAX_OUTPUT_SIZE < s.length →
      (execModeResult s processId workingDir).success = false
      ∧ (execModeResult s processId workingDir).stdout = strTake s MAX_OUTPUT_SIZE
      ∧ (execModeResult s processId workingDir).stdout.length = MAX_OUTPUT_SIZE
      ∧ (execModeResult s processId workingDir).exitCode
          = some (.str "ERR_CHILD_PROCESS_STDOUT_MAXBUFFER"))
    ∧ (∀ (s processId workingDir : String),
      s.length ≤ MAX_OUTPUT_SIZE →
      (execModeResult s processId workingDir).success = true
      ∧ (execModeResult s processId workingDir).stdout = s)
    ∧ (∀ chunks : List String,
      (interactiveAccumulate chunks).length = (chunks.map String.length).sum) := by
  refine ⟨fun s p w h => execModeResult_overflow s p w h, ?_, ?_⟩
  · intro s p w h
    have hs : execWithMaxBuffer s MAX_OUTPUT_SIZE = (none, s) := by
      unfold execWithMaxBuffer
      rw [if_neg (by omega)]
    have he : execModeResult s p w = nonInteractiveCallbackResult none s "" p w := by
      unfold execModeResult
      rw [hs]
    constructor
    · rw [he]
      rfl
    · rw [he]
      rfl
  · intro chunks
    have aux : ∀ (cs : List String) (init : String),
        (List.foldl (fun acc c => acc ++ c) init cs).length
          = init.length + (cs.map String.length).sum := by
      intro cs
      induction cs with
      | nil =>
        intro init
        simp
      | cons c cs ih =>
        intro init
        simp only [List.foldl_cons, ih, List.map_cons, List.sum_cons, String.length_append]
        omega
    simpa using aux chunks ""

/-- Witness for C8 at a 1 MiB + 1 output, a small output, and concrete chunks. -/
theorem C8_witness :
    ((execModeResult (String.mk (List.replicate (MAX_OUTPUT_SIZE + 1) 'b')) "proc_2"
        TERMINAL_BASE_DIR).success = false
      ∧ (execModeResult (String.mk (List.replicate (MAX_OUTPUT_SIZE + 1) 'b')) "proc_2"
          TERMINAL_BASE_DIR).stdout
        = strTake (String.mk (List.replicate (MAX_OUTPUT_SIZE + 1) 'b')) MAX_OUTPUT_SIZE
      ∧ (execModeResult (String.mk (List.replicate (MAX_OUTPUT_SIZE + 1) 'b')) "proc_2"
          TERMINAL_BASE_DIR).stdout.length = MAX_OUTPUT_SIZE
      ∧ (execModeResult (String.mk (List.replicate (MAX_OUTPUT_SIZE + 1) 'b')) "proc_2"
          TERMINAL_BASE_DIR).exitCode = some (.str "ERR_CHILD_PROCESS_STDOUT_MAXBUFFER"))
    ∧ ((execModeResult "hi" "proc_3" TERMINAL_BASE_DIR).success = true
      ∧ (execModeResult "hi" "proc_3" TERMINAL_BASE_DIR).stdout = "hi")
    ∧ (interactiveAccumulate ["ab", "c"]).length = (["ab", "c"].map String.length).sum :=
  ⟨C8_output_capture.1 (String.mk (List.replicate (MAX_OUTPUT_SIZE + 1) 'b')) "proc_2"
      TERMINAL_BASE_DIR (by
        show MAX_OUTPUT_SIZE < (List.replicate (MAX_OUTPUT_SIZE + 1) 'b').length
        simp),
   C8_output_capture.2.1 "hi" "proc_3" TERMINAL_BASE_DIR (by decide),
   C8_output_capture.2.2 ["ab", "c"]⟩

/-- Claim C9: in interactive mode the command string is split on single
spaces, the first field is spawned directly as the executable with the
remaining fields as arguments (the fields rejoin to the original string), and
no shell is involved — shell syntax such as a pipe becomes a literal argument
— whereas execute mode runs the whole string through the shell. -/
theorem C9_interactive_no_shell :
    (∀ command : String,
      (interactiveSpawnCall command).shell = false
      ∧ joinWithChar ' ' ((interactiveSpawnCall command).file.data
          :: ((interactiveSpawnCall command).args.map String.data)) = command.data
      ∧ (executeSpawnCall command).shell = true
      ∧ (executeSpawnCall command).file = "/bin/sh"
      ∧ (executeSpawnCall command).args = ["-c", command])
    ∧ interactiveSpawnCall "ls -la /tmp | grep x"
        = { file := "ls", args := ["-la", "/tmp", "|", "grep", "x"], shell := false } := by
  constructor
  · intro command
    have hcomp : (String.data ∘ fun l => (⟨l⟩ : String)) = id := rfl
    cases hsp : splitOnCharL ' ' command.data with
    | nil => exact absurd hsp (splitOnCharL_ne_nil ' ' command.data)
    | cons h t =>
      refine ⟨?_, ?_, rfl, rfl, rfl⟩
      · simp only [interactiveSpawnCall, hsp]
      · simp only [interactiveSpawnCall, hsp]
        rw [List.map_map, hcomp, List.map_id, ← hsp, joinWithChar_splitOnCharL]
  · decide

/-- Claim C10: a successful kill of a tracked id removes its registry entry
before killProcess returns — the lookup misses, the id is gone from the ids
list_processes enumerates, and the new registry is exactly the old one
without that key — regardless of whether the OS process has actually exited
(the handle's liveness fields are unconstrained). -/
theorem C10_kill_removes_registry_entry :
    ∀ (st : EngineState) (processId : String) (handle : ProcHandle),
      lookupProc st processId = some handle →
      handle.killError = none →
      (killProcess st processId).1 = checkMark ++ " Process " ++ processId ++ " terminated"
      ∧ lookupProc (killProcess st processId).2.1 processId = none
      ∧ processId ∉ listedIds (killProcess st processId).2.1
      ∧ (killProcess st processId).2.1.activeProcesses
          = st.activeProcesses.filter (fun e => !(e.1 == processId)) := by
  intro st processId handle hfound hke
  have hk : killProcess st processId
      = (checkMark ++ " Process " ++ processId ++ " terminated",
         removeProc st processId, some processId) := by
    simp only [killProcess, hfound, hke]
  rw [hk]
  refine ⟨rfl, lookupProc_removeProc st processId, ?_, rfl⟩
  intro hmem
  simp only [listedIds, removeProc, List.mem_map] at hmem
  obtain ⟨e, he, hfst⟩ := hmem
  have hnp := (List.mem_filter.mp he).2
  rw [hfst] at hnp
  simp at hnp

/-- Witness for C10 at a registry whose process is still alive and ignoring SIGTERM. -/
theorem C10_witness :
    (killProcess
        { activeProcesses := [("proc_7",
            { pid := 99, killed := false, running := true, ignoresSigterm := true
            , killError := none })], processCounter := 7 } "proc_7").1
      = checkMark ++ " Process " ++ "proc_7" ++ " terminated"
    ∧ lookupProc (killProcess
        { activeProcesses := [("proc_7",
            { pid := 99, killed := false, running := true, ignoresSigterm := true
            , killError := none })], processCounter := 7 } "proc_7").2.1 "proc_7" = none
    ∧ "proc_7" ∉ listedIds (killProcess
        { activeProcesses := [("proc_7",
            { pid := 99, killed := false, running := true, ignoresSigterm := true
            , killError := none })], processCounter := 7 } "proc_7").2.1
    ∧ (killProcess
        { activeProcesses := [("proc_7",
            { pid := 99, killed := false, running := true, ignoresSigterm := true
            , killError := none })], processCounter := 7 } "proc_7").2.1.activeProcesses
      = List.filter (fun e => !(e.1 == "proc_7"))
          [("proc_7",
            { pid := 99, killed := false, running := true, ignoresSigterm := true
            , killError := none })] :=
  C10_kill_removes_registry_entry
    { activeProcesses := [("proc_7",
        { pid := 99, killed := false, running := true, ignoresSigterm := true
        , killError := none })], processCounter := 7 } "proc_7"
    { pid := 99, killed := false, running := true, ignoresSigterm := true, killError := none }
    rfl rfl

end NeuraOps
